import Mathlib

/-!
Shallow embedding of `src/main.ts` of step-security/setup-gcloud.

The action's `run` function is embedded as a pure function from the step
inputs and an environment of external collaborators (the Tool Provisioner,
the Credential Broker, the subscription endpoint, the ambient environment
variables) to a trace of observable effects plus a termination result.
Every delegated operation is recorded in the trace at the point where the
source invokes it; fallible delegated operations are oracles returning
`Except String`, matching the JavaScript functions that may throw.
-/

/-- Outcome of the `axios.get` call in `validateSubscription`:
success, a 403 response, or any other failure (timeout, unreachable,
non-403 status). -/
inductive SubStatus
  | ok
  | forbidden
  | failedOther
  deriving DecidableEq, Repr

/-- Observable effects of a run, in program order.  Each constructor is one
call the source makes into `@actions/core`, `@actions/tool-cache`,
`setup-cloud-sdk`, `process.env`, or `process.exit`. -/
inductive Effect
  | exportVariable (name value : String)
  | setEnvVar (name value : String)
  | logInfo (msg : String)
  | logWarning (msg : String)
  | logDebug (msg : String)
  | logError (msg : String)
  | addPath (p : String)
  | callBestVersion (constraint : String)
  | callToolCacheFind (tool version : String)
  | callInstallGcloudSDK (version : String) (useCache : Bool)
  | callInstallComponent (components : List String)
  | callAuthenticate (credFile : String)
  | callIsAuthenticated
  | callSetProject (projectId : String)
  | setOutput (name : String) (value : Option String)
  | setFailed (msg : String)
  deriving DecidableEq, Repr

/-- The declarative step inputs, after the boolean ones have been parsed:
`skipInstall = parseBoolean(core.getInput('skip_install'))`,
`cache = parseBoolean(core.getInput('cache'))`; the string fields hold the
raw results of `core.getInput`. -/
structure Inputs where
  skipInstall : Bool
  version : String
  installComponents : String
  projectId : String
  cache : Bool
  deriving Repr

/-- External collaborators and ambient state.  `googleGhaCredsPath` is the
value of `process.env.GOOGLE_GHA_CREDS_PATH`, with `""` standing for both
unset and empty (both are falsy in the source's `if (credFile)` test). -/
structure Env where
  subscription : SubStatus
  pinnedToHead : Bool
  appVersion : String
  googleGhaCredsPath : String
  bestVersion : String → Except String String
  toolCacheFind : String → String → String
  installGcloudSDK : String → Bool → Except String Unit
  installComponent : List String → Except String Unit
  authenticateGcloudSDK : String → Except String Unit
  isAuthenticated : Except String Bool
  setProject : String → Except String Unit

/-- ASCII whitespace, as trimmed by JavaScript `String.prototype.trim` on
the inputs relevant here. -/
def isSpaceChar (c : Char) : Bool :=
  c = ' ' || c = '\t' || c = '\n' || c = '\r'

/-- Model of JavaScript `String.prototype.trim`: drop leading and trailing
whitespace. -/
def jsTrim (s : String) : String :=
  ⟨((s.data.dropWhile isSpaceChar).reverse.dropWhile isSpaceChar).reverse⟩

/-- Model of JavaScript `String.prototype.split` with a single-character
separator: splits at every separator occurrence, keeping empty pieces. -/
def splitChars (sep : Char) : List Char → List (List Char)
  | [] => [[]]
  | c :: rest =>
    let r := splitChars sep rest
    if c = sep then [] :: r
    else (c :: r.headD []) :: r.tail

/-- JavaScript `s.split(sep)` for a one-character separator. -/
def jsSplit (sep : Char) (s : String) : List String :=
  (splitChars sep s.data).map fun l => ⟨l⟩

/-- `presence` from `actions-utils`: trim, and collapse the empty string to
absent, returning the trimmed value otherwise. -/
def presence (s : String) : Option String :=
  if jsTrim s = "" then none else some (jsTrim s)

def subscriptionErrorMsg : String :=
  "Subscription is not valid. Reach out to support@stepsecurity.io"

def subscriptionInfoMsg : String :=
  "Timeout or API not reachable. Continuing to next step."

def skipInstallInfoMsg : String :=
  "Skipping installation (\"skip_install\" was true)"

def ignoreVersionWarningMsg : String :=
  "Ignoring \"version\" because \"skip_install\" was true!"

def componentsWarningMsg : String :=
  "Installing custom components with the system-provided gcloud may fail. Set \"skip_install\" to false to install a managed version."

def authWarningMsg : String :=
  "The gcloud CLI is not authenticated (or it is not installed). Authenticate by adding the \"google-github-actions/auth\" step prior this one."

def authSuccessMsg : String :=
  "Successfully authenticated"

def projectSuccessMsg : String :=
  "Successfully set default project"

def failurePrefix : String :=
  "google-github-actions/setup-gcloud failed with: "

/-- Placeholder for the text of `pinnedToHeadWarning('v3')` from
`actions-utils`; its content is external to this repository. -/
def pinnedHeadWarningMsg : String :=
  "pinnedToHeadWarning v3"

/-- The cache-probe-or-install step (lines 106-113 of the source), run with
the fully resolved version `v`; `t` is the trace accumulated so far. -/
def installStep (inp : Inputs) (env : Env) (v : String) (t : List Effect) :
    List Effect × Except String (Option String) :=
  let toolPath := env.toolCacheFind "gcloud" v
  let t1 := t ++ [Effect.callToolCacheFind "gcloud" v]
  if toolPath ≠ "" then
    (t1 ++ [Effect.addPath (toolPath ++ "/bin")], Except.ok (some v))
  else
    let t2 := t1 ++ [Effect.logDebug ("no version of gcloud matching \"" ++ v ++ "\" is installed"),
                     Effect.callInstallGcloudSDK v inp.cache]
    match env.installGcloudSDK v inp.cache with
    | Except.error e => (t2, Except.error e)
    | Except.ok _ => (t2, Except.ok (some v))

/-- Effects of the skip-install branch (lines 80-90): the info line, the
ignored-version warning when a non-`"latest"` version was given, the
components warning when components were given. -/
def skipTrace (inp : Inputs) : List Effect :=
  [Effect.logInfo skipInstallInfoMsg]
    ++ (match presence inp.version with
        | some v => if v ≠ "latest" then [Effect.logWarning ignoreVersionWarningMsg] else []
        | none => [])
    ++ (if inp.installComponents ≠ "" then [Effect.logWarning componentsWarningMsg] else [])

/-- The `version` constraint after the defaulting at lines 96-99: the
`presence`-normalized input, or `"> 0.0.0"` when it was absent. -/
def resolvedConstraint (inp : Inputs) : String :=
  (presence inp.version).getD "> 0.0.0"

/-- The debug line emitted when the version input was unset (line 97). -/
def unsetDebugTrace (inp : Inputs) : List Effect :=
  match presence inp.version with
  | none => [Effect.logDebug "version was unset, defaulting to any version"]
  | some _ => []

/-- The skip-install/version-resolution/install branch (lines 79-114).
Returns the trace and, on success, the value of the `version` variable
after the branch (an `Option` because in the skip path it keeps the
`presence`-normalized input, which may be `undefined`). -/
def phaseInstall (inp : Inputs) (env : Env) :
    List Effect × Except String (Option String) :=
  if inp.skipInstall then
    (skipTrace inp, Except.ok (presence inp.version))
  else if resolvedConstraint inp = "latest" then
    let t1 := unsetDebugTrace inp ++ [Effect.logDebug "resolving latest version",
                                      Effect.callBestVersion "> 0.0.0"]
    match env.bestVersion "> 0.0.0" with
    | Except.error e => (t1, Except.error e)
    | Except.ok r =>
      installStep inp env r (t1 ++ [Effect.logDebug ("resolved latest version to " ++ r)])
  else
    installStep inp env (resolvedConstraint inp) (unsetDebugTrace inp)

/-- `components.split(',').map((comp) => comp.trim())` (line 118). -/
def componentsListOf (s : String) : List String :=
  (jsSplit ',' s).map jsTrim

/-- The extra-components step (lines 116-119). -/
def phaseComponents (inp : Inputs) (env : Env) : List Effect × Except String Unit :=
  if inp.installComponents ≠ "" then
    let comps := componentsListOf inp.installComponents
    ([Effect.callInstallComponent comps], env.installComponent comps)
  else ([], Except.ok ())

/-- The authentication step (lines 121-141). -/
def phaseAuth (env : Env) : List Effect × Except String Unit :=
  if env.googleGhaCredsPath ≠ "" then
    match env.authenticateGcloudSDK env.googleGhaCredsPath with
    | Except.error e => ([Effect.callAuthenticate env.googleGhaCredsPath], Except.error e)
    | Except.ok _ =>
      ([Effect.callAuthenticate env.googleGhaCredsPath, Effect.logInfo authSuccessMsg],
       Except.ok ())
  else
    let authed := match env.isAuthenticated with
      | Except.ok b => b
      | Except.error _ => false
    ([Effect.callIsAuthenticated]
      ++ (if authed then [] else [Effect.logWarning authWarningMsg]),
     Except.ok ())

/-- The project-configuration step (lines 143-147). -/
def phaseProject (inp : Inputs) (env : Env) : List Effect × Except String Unit :=
  if inp.projectId ≠ "" then
    match env.setProject inp.projectId with
    | Except.error e => ([Effect.callSetProject inp.projectId], Except.error e)
    | Except.ok _ =>
      ([Effect.callSetProject inp.projectId, Effect.logInfo projectSuccessMsg], Except.ok ())
  else ([], Except.ok ())

/-- The body of the `try` block (lines 72-149): the four phases in order,
each later phase run only if no earlier one threw, ending with
`core.setOutput('version', version)`. -/
def tryBody (inp : Inputs) (env : Env) : List Effect × Except String (Option String) :=
  match phaseInstall inp env with
  | (t1, Except.error e) => (t1, Except.error e)
  | (t1, Except.ok v) =>
    match phaseComponents inp env with
    | (t2, Except.error e) => (t1 ++ t2, Except.error e)
    | (t2, Except.ok _) =>
      match phaseAuth env with
      | (t3, Except.error e) => (t1 ++ t2 ++ t3, Except.error e)
      | (t3, Except.ok _) =>
        match phaseProject inp env with
        | (t4, Except.error e) => (t1 ++ t2 ++ t3 ++ t4, Except.error e)
        | (t4, Except.ok _) =>
          (t1 ++ t2 ++ t3 ++ t4 ++ [Effect.setOutput "version" v], Except.ok v)

/-- How the process ended: `process.exit(code)`, or the normal return of
`run` (covering both success and the `setFailed` path). -/
inductive RunResult
  | exited (code : Nat)
  | completed
  deriving DecidableEq, Repr

/-- The effects before the `try` block (lines 62-70): metrics exports, the
process-local `CLOUDSDK_CORE_DISABLE_PROMPTS` assignment, the pinned-to-HEAD
warning. -/
def preTrace (env : Env) : List Effect :=
  [Effect.exportVariable "CLOUDSDK_METRICS_ENVIRONMENT" "github-actions-setup-gcloud",
   Effect.exportVariable "CLOUDSDK_METRICS_ENVIRONMENT_VERSION" env.appVersion,
   Effect.setEnvVar "CLOUDSDK_CORE_DISABLE_PROMPTS" "1"]
  ++ (if env.pinnedToHead then [Effect.logWarning pinnedHeadWarningMsg] else [])

/-- The trace of `validateSubscription` (lines 42-55). -/
def subscriptionTrace (s : SubStatus) : List Effect :=
  match s with
  | SubStatus.ok => []
  | SubStatus.forbidden => [Effect.logError subscriptionErrorMsg]
  | SubStatus.failedOther => [Effect.logInfo subscriptionInfoMsg]

/-- The whole `run` function (lines 57-154): subscription check (which may
`process.exit(1)`), pre-trace, try body, and the `catch` converting an
exception to `setFailed`. -/
def run (inp : Inputs) (env : Env) : List Effect × RunResult :=
  match env.subscription with
  | SubStatus.forbidden => (subscriptionTrace SubStatus.forbidden, RunResult.exited 1)
  | s =>
    let t := subscriptionTrace s ++ preTrace env
    match tryBody inp env with
    | (tb, Except.ok _) => (t ++ tb, RunResult.completed)
    | (tb, Except.error e) =>
      (t ++ tb ++ [Effect.setFailed (failurePrefix ++ e)], RunResult.completed)

/-! ## Trace observation helpers -/

/-- Selector for `installGcloudSDK` calls. -/
def selInstall : Effect → Option (String × Bool) := fun e =>
  match e with
  | Effect.callInstallGcloudSDK v c => some (v, c)
  | _ => none

/-- Selector for `toolCache.find` calls. -/
def selFind : Effect → Option (String × String) := fun e =>
  match e with
  | Effect.callToolCacheFind tool v => some (tool, v)
  | _ => none

/-- Selector for `bestVersion` calls. -/
def selBestVersion : Effect → Option String := fun e =>
  match e with
  | Effect.callBestVersion c => some c
  | _ => none

/-- Selector for `installComponent` calls. -/
def selComponent : Effect → Option (List String) := fun e =>
  match e with
  | Effect.callInstallComponent cs => some cs
  | _ => none

/-- Selector for `authenticateGcloudSDK` calls. -/
def selAuth : Effect → Option String := fun e =>
  match e with
  | Effect.callAuthenticate p => some p
  | _ => none

/-- Selector for `core.setOutput` calls. -/
def selOutput : Effect → Option (String × Option String) := fun e =>
  match e with
  | Effect.setOutput n v => some (n, v)
  | _ => none

/-- Selector for `core.exportVariable` calls. -/
def selExportVar : Effect → Option (String × String) := fun e =>
  match e with
  | Effect.exportVariable n v => some (n, v)
  | _ => none

/-- The arguments of the `installGcloudSDK` calls in a trace. -/
def installCalls (t : List Effect) : List (String × Bool) :=
  t.filterMap selInstall

/-- The arguments of the `toolCache.find` calls in a trace. -/
def findCalls (t : List Effect) : List (String × String) :=
  t.filterMap selFind

/-- The arguments of the `bestVersion` calls in a trace. -/
def bestVersionCalls (t : List Effect) : List String :=
  t.filterMap selBestVersion

/-- The arguments of the `installComponent` calls in a trace. -/
def componentCalls (t : List Effect) : List (List String) :=
  t.filterMap selComponent

/-- The arguments of the `authenticateGcloudSDK` calls in a trace. -/
def authCalls (t : List Effect) : List String :=
  t.filterMap selAuth

/-- How many times `isAuthenticated` was queried in a trace. -/
def isAuthenticatedCalls (t : List Effect) : Nat :=
  t.count Effect.callIsAuthenticated

/-- The `(name, value)` pairs passed to `core.setOutput` in a trace. -/
def outputsOf (t : List Effect) : List (String × Option String) :=
  t.filterMap selOutput

/-- The `(name, value)` pairs passed to `core.exportVariable` in a trace. -/
def exportVarCalls (t : List Effect) : List (String × String) :=
  t.filterMap selExportVar

/-- How many warnings with message `m` a trace holds. -/
def warningCount (t : List Effect) (m : String) : Nat :=
  t.count (Effect.logWarning m)

/-! ## Concrete environments and inputs for witnesses -/

/-- A fully successful environment: subscription ok, credentials file set,
cold tool cache, all delegated operations succeed. -/
def envOk : Env where
  subscription := SubStatus.ok
  pinnedToHead := false
  appVersion := "1.0.0"
  googleGhaCredsPath := "/tmp/creds.json"
  bestVersion := fun _ => Except.ok "500.0.0"
  toolCacheFind := fun _ _ => ""
  installGcloudSDK := fun _ _ => Except.ok ()
  installComponent := fun _ => Except.ok ()
  authenticateGcloudSDK := fun _ => Except.ok ()
  isAuthenticated := Except.ok true
  setProject := fun _ => Except.ok ()

/-- `envOk` with a rejected subscription (the 403 case). -/
def envForbidden : Env := { envOk with subscription := SubStatus.forbidden }

/-- `envOk` with a subscription check that fails for a non-403 reason. -/
def envFailedOther : Env := { envOk with subscription := SubStatus.failedOther }

/-- `envOk` with a warm tool cache: `toolCache.find` returns a path. -/
def envWarm : Env := { envOk with toolCacheFind := fun _ _ => "/cache/gcloud" }

/-- `envOk` with a credentials file whose authentication fails. -/
def envAuthFail : Env :=
  { envOk with authenticateGcloudSDK := fun _ => Except.error "auth boom" }

/-- `envOk` without a credentials file and with an `isAuthenticated` check
that itself throws. -/
def envNoCreds : Env :=
  { envOk with googleGhaCredsPath := "", isAuthenticated := Except.error "not installed" }

/-- `envOk` with a failing `installGcloudSDK`. -/
def envInstallFail : Env :=
  { envOk with installGcloudSDK := fun _ _ => Except.error "install boom" }

/-! ## Message distinctness -/

theorem ignore_ne_auth : ignoreVersionWarningMsg ≠ authWarningMsg := by decide

theorem components_ne_auth : componentsWarningMsg ≠ authWarningMsg := by decide

theorem pinned_ne_auth : pinnedHeadWarningMsg ≠ authWarningMsg := by decide

theorem auth_ne_ignore : authWarningMsg ≠ ignoreVersionWarningMsg := by decide

theorem components_ne_ignore : componentsWarningMsg ≠ ignoreVersionWarningMsg := by decide

theorem pinned_ne_ignore : pinnedHeadWarningMsg ≠ ignoreVersionWarningMsg := by decide

/-! ## Shape of each phase's trace -/

theorem mem_preTrace (env : Env) (e : Effect) (h : e ∈ preTrace env) :
    e = Effect.exportVariable "CLOUDSDK_METRICS_ENVIRONMENT" "github-actions-setup-gcloud" ∨
    e = Effect.exportVariable "CLOUDSDK_METRICS_ENVIRONMENT_VERSION" env.appVersion ∨
    e = Effect.setEnvVar "CLOUDSDK_CORE_DISABLE_PROMPTS" "1" ∨
    e = Effect.logWarning pinnedHeadWarningMsg := by
  unfold preTrace at h
  cases hp : env.pinnedToHead <;> simp [hp] at h <;> tauto

theorem mem_subscriptionTrace (s : SubStatus) (e : Effect) (h : e ∈ subscriptionTrace s) :
    e = Effect.logError subscriptionErrorMsg ∨ e = Effect.logInfo subscriptionInfoMsg := by
  cases s <;> simp_all [subscriptionTrace]

theorem mem_phaseComponents (inp : Inputs) (env : Env) (e : Effect)
    (h : e ∈ (phaseComponents inp env).1) :
    e = Effect.callInstallComponent (componentsListOf inp.installComponents) := by
  unfold phaseComponents at h
  by_cases hc : inp.installComponents = "" <;> simp [hc] at h
  exact h

theorem mem_phaseAuth (env : Env) (e : Effect) (h : e ∈ (phaseAuth env).1) :
    e = Effect.callAuthenticate env.googleGhaCredsPath ∨ e = Effect.logInfo authSuccessMsg ∨
    e = Effect.callIsAuthenticated ∨ e = Effect.logWarning authWarningMsg := by
  unfold phaseAuth at h
  by_cases hc : env.googleGhaCredsPath = ""
  · cases hia : env.isAuthenticated with
    | error s => simp [hc, hia] at h; tauto
    | ok b => cases b <;> simp [hc, hia] at h <;> tauto
  · cases ha : env.authenticateGcloudSDK env.googleGhaCredsPath <;> simp [hc, ha] at h <;> tauto

theorem mem_phaseProject (inp : Inputs) (env : Env) (e : Effect)
    (h : e ∈ (phaseProject inp env).1) :
    e = Effect.callSetProject inp.projectId ∨ e = Effect.logInfo projectSuccessMsg := by
  unfold phaseProject at h
  by_cases hc : inp.projectId = ""
  · simp [hc] at h
  · cases hp : env.setProject inp.projectId <;> simp [hc, hp] at h <;> tauto

theorem mem_skipTrace (inp : Inputs) (e : Effect) (h : e ∈ skipTrace inp) :
    e = Effect.logInfo skipInstallInfoMsg ∨
    e = Effect.logWarning ignoreVersionWarningMsg ∨
    e = Effect.logWarning componentsWarningMsg := by
  unfold skipTrace at h
  rcases hp : presence inp.version with _ | v <;> rw [hp] at h <;>
    by_cases hc : inp.installComponents = "" <;> simp [hc] at h <;> tauto

theorem mem_unsetDebugTrace (inp : Inputs) (e : Effect) (h : e ∈ unsetDebugTrace inp) :
    e = Effect.logDebug "version was unset, defaulting to any version" := by
  unfold unsetDebugTrace at h
  rcases hp : presence inp.version with _ | v <;> rw [hp] at h <;> simp at h
  exact h

theorem mem_installStep (inp : Inputs) (env : Env) (v : String) (t : List Effect) (e : Effect)
    (h : e ∈ (installStep inp env v t).1) :
    e ∈ t ∨ e = Effect.callToolCacheFind "gcloud" v ∨
    e = Effect.addPath (env.toolCacheFind "gcloud" v ++ "/bin") ∨
    (∃ m, e = Effect.logDebug m) ∨
    e = Effect.callInstallGcloudSDK v inp.cache := by
  unfold installStep at h
  by_cases hf : env.toolCacheFind "gcloud" v = ""
  · cases hi : env.installGcloudSDK v inp.cache <;> simp [hf, hi] at h <;>
      rcases h with h | h | h | h <;>
      first
      | exact Or.inl h
      | (subst h; simp)
  · simp [hf] at h
    rcases h with h | h | h <;>
      first
      | exact Or.inl h
      | (subst h; simp)

theorem mem_phaseInstall (inp : Inputs) (env : Env) (e : Effect)
    (h : e ∈ (phaseInstall inp env).1) :
    e = Effect.logInfo skipInstallInfoMsg ∨
    e = Effect.logWarning ignoreVersionWarningMsg ∨
    e = Effect.logWarning componentsWarningMsg ∨
    (∃ m, e = Effect.logDebug m) ∨
    e = Effect.callBestVersion "> 0.0.0" ∨
    (∃ w, e = Effect.callToolCacheFind "gcloud" w) ∨
    (∃ p, e = Effect.addPath p) ∨
    (∃ w, e = Effect.callInstallGcloudSDK w inp.cache) := by
  unfold phaseInstall at h
  by_cases hs : inp.skipInstall
  · simp [hs] at h
    rcases mem_skipTrace inp e h with h | h | h <;> subst h <;> simp
  · by_cases hl : resolvedConstraint inp = "latest"
    · simp [hs, hl] at h
      cases hb : env.bestVersion "> 0.0.0" with
      | error s =>
        rw [hb] at h; simp at h
        rcases h with h | h | h
        · rcases mem_unsetDebugTrace inp e h with rfl; simp
        · subst h; simp
        · subst h; simp
      | ok r =>
        rw [hb] at h
        rcases mem_installStep inp env r _ e h with h | h | h | h | h
        · simp at h
          rcases h with h | h | h | h
          · rcases mem_unsetDebugTrace inp e h with rfl; simp
          · subst h; simp
          · subst h; simp
          · subst h; simp
        · subst h; simp
        · subst h; simp
        · rcases h with ⟨m, rfl⟩; simp
        · subst h; simp
    · simp [hs, hl] at h
      rcases mem_installStep inp env _ _ e h with h | h | h | h | h
      · rcases mem_unsetDebugTrace inp e h with rfl; simp
      · subst h; simp
      · subst h; simp
      · rcases h with ⟨m, rfl⟩; simp
      · subst h; simp

theorem componentCalls_phaseInstall (inp : Inputs) (env : Env) :
    componentCalls (phaseInstall inp env).1 = [] := by
  rw [componentCalls, List.filterMap_eq_nil_iff]
  intro e he
  rcases mem_phaseInstall inp env e he with h | h | h | ⟨m, h⟩ | h | ⟨w, h⟩ | ⟨p, h⟩ | ⟨w, h⟩ <;>
    subst h <;> rfl

theorem authCalls_phaseInstall (inp : Inputs) (env : Env) :
    authCalls (phaseInstall inp env).1 = [] := by
  rw [authCalls, List.filterMap_eq_nil_iff]
  intro e he
  rcases mem_phaseInstall inp env e he with h | h | h | ⟨m, h⟩ | h | ⟨w, h⟩ | ⟨p, h⟩ | ⟨w, h⟩ <;>
    subst h <;> rfl

theorem isAuthenticatedCalls_phaseInstall (inp : Inputs) (env : Env) :
    isAuthenticatedCalls (phaseInstall inp env).1 = 0 := by
  rw [isAuthenticatedCalls, List.count_eq_zero]
  intro hmem
  rcases mem_phaseInstall inp env _ hmem with h | h | h | ⟨m, h⟩ | h | ⟨w, h⟩ | ⟨p, h⟩ | ⟨w, h⟩ <;>
    simp at h

theorem outputsOf_phaseInstall (inp : Inputs) (env : Env) :
    outputsOf (phaseInstall inp env).1 = [] := by
  rw [outputsOf, List.filterMap_eq_nil_iff]
  intro e he
  rcases mem_phaseInstall inp env e he with h | h | h | ⟨m, h⟩ | h | ⟨w, h⟩ | ⟨p, h⟩ | ⟨w, h⟩ <;>
    subst h <;> rfl

theorem exportVarCalls_phaseInstall (inp : Inputs) (env : Env) :
    exportVarCalls (phaseInstall inp env).1 = [] := by
  rw [exportVarCalls, List.filterMap_eq_nil_iff]
  intro e he
  rcases mem_phaseInstall inp env e he with h | h | h | ⟨m, h⟩ | h | ⟨w, h⟩ | ⟨p, h⟩ | ⟨w, h⟩ <;>
    subst h <;> rfl

theorem warningCount_phaseInstall_auth (inp : Inputs) (env : Env) :
    warningCount (phaseInstall inp env).1 authWarningMsg = 0 := by
  rw [warningCount, List.count_eq_zero]
  intro hmem
  rcases mem_phaseInstall inp env _ hmem with h | h | h | ⟨m, h⟩ | h | ⟨w, h⟩ | ⟨p, h⟩ | ⟨w, h⟩ <;>
    simp at h <;> first
  | exact auth_ne_ignore h
  | exact components_ne_auth h.symm

/-! ## Generic extraction lemmas per phase -/

theorem filterMap_subscriptionTrace {α : Type} (s : SubStatus) (f : Effect → Option α)
    (hErr : ∀ m, f (Effect.logError m) = none) (hInfo : ∀ m, f (Effect.logInfo m) = none) :
    List.filterMap f (subscriptionTrace s) = [] := by
  rw [List.filterMap_eq_nil_iff]
  intro e he
  rcases mem_subscriptionTrace s e he with rfl | rfl
  · exact hErr _
  · exact hInfo _

theorem count_subscriptionTrace (s : SubStatus) (a : Effect)
    (hErr : ∀ m, a ≠ Effect.logError m) (hInfo : ∀ m, a ≠ Effect.logInfo m) :
    (subscriptionTrace s).count a = 0 := by
  rw [List.count_eq_zero]
  intro hmem
  rcases mem_subscriptionTrace s a hmem with rfl | rfl
  · exact hErr _ rfl
  · exact hInfo _ rfl

theorem filterMap_preTrace {α : Type} (env : Env) (f : Effect → Option α)
    (hExp : ∀ n v, f (Effect.exportVariable n v) = none)
    (hSet : ∀ n v, f (Effect.setEnvVar n v) = none)
    (hWarn : ∀ m, f (Effect.logWarning m) = none) :
    List.filterMap f (preTrace env) = [] := by
  rw [List.filterMap_eq_nil_iff]
  intro e he
  rcases mem_preTrace env e he with rfl | rfl | rfl | rfl
  · exact hExp _ _
  · exact hExp _ _
  · exact hSet _ _
  · exact hWarn _

theorem count_preTrace (env : Env) (a : Effect)
    (hExp : ∀ n v, a ≠ Effect.exportVariable n v)
    (hSet : ∀ n v, a ≠ Effect.setEnvVar n v)
    (hWarn : a ≠ Effect.logWarning pinnedHeadWarningMsg) :
    (preTrace env).count a = 0 := by
  rw [List.count_eq_zero]
  intro hmem
  rcases mem_preTrace env a hmem with rfl | rfl | rfl | rfl
  · exact hExp _ _ rfl
  · exact hExp _ _ rfl
  · exact hSet _ _ rfl
  · exact hWarn rfl

theorem filterMap_phaseComponents {α : Type} (inp : Inputs) (env : Env) (f : Effect → Option α)
    (hComp : ∀ cs, f (Effect.callInstallComponent cs) = none) :
    List.filterMap f (phaseComponents inp env).1 = [] := by
  rw [List.filterMap_eq_nil_iff]
  intro e he
  rcases mem_phaseComponents inp env e he with rfl
  exact hComp _

theorem count_phaseComponents (inp : Inputs) (env : Env) (a : Effect)
    (hComp : ∀ cs, a ≠ Effect.callInstallComponent cs) :
    (phaseComponents inp env).1.count a = 0 := by
  rw [List.count_eq_zero]
  intro hmem
  rcases mem_phaseComponents inp env a hmem with rfl
  exact hComp _ rfl

theorem filterMap_phaseAuth {α : Type} (env : Env) (f : Effect → Option α)
    (hAuth : ∀ p, f (Effect.callAuthenticate p) = none)
    (hInfo : ∀ m, f (Effect.logInfo m) = none)
    (hIs : f Effect.callIsAuthenticated = none)
    (hWarn : ∀ m, f (Effect.logWarning m) = none) :
    List.filterMap f (phaseAuth env).1 = [] := by
  rw [List.filterMap_eq_nil_iff]
  intro e he
  rcases mem_phaseAuth env e he with rfl | rfl | rfl | rfl
  · exact hAuth _
  · exact hInfo _
  · exact hIs
  · exact hWarn _

theorem count_phaseAuth (env : Env) (a : Effect)
    (hAuth : ∀ p, a ≠ Effect.callAuthenticate p)
    (hInfo : ∀ m, a ≠ Effect.logInfo m)
    (hIs : a ≠ Effect.callIsAuthenticated)
    (hWarn : a ≠ Effect.logWarning authWarningMsg) :
    (phaseAuth env).1.count a = 0 := by
  rw [List.count_eq_zero]
  intro hmem
  rcases mem_phaseAuth env a hmem with rfl | rfl | rfl | rfl
  · exact hAuth _ rfl
  · exact hInfo _ rfl
  · exact hIs rfl
  · exact hWarn rfl

theorem filterMap_phaseProject {α : Type} (inp : Inputs) (env : Env) (f : Effect → Option α)
    (hProj : ∀ s, f (Effect.callSetProject s) = none)
    (hInfo : ∀ m, f (Effect.logInfo m) = none) :
    List.filterMap f (phaseProject inp env).1 = [] := by
  rw [List.filterMap_eq_nil_iff]
  intro e he
  rcases mem_phaseProject inp env e he with rfl | rfl
  · exact hProj _
  · exact hInfo _

theorem count_phaseProject (inp : Inputs) (env : Env) (a : Effect)
    (hProj : ∀ s, a ≠ Effect.callSetProject s)
    (hInfo : ∀ m, a ≠ Effect.logInfo m) :
    (phaseProject inp env).1.count a = 0 := by
  rw [List.count_eq_zero]
  intro hmem
  rcases mem_phaseProject inp env a hmem with rfl | rfl
  · exact hProj _ rfl
  · exact hInfo _ rfl

theorem filterMap_skipTrace {α : Type} (inp : Inputs) (f : Effect → Option α)
    (hInfo : ∀ m, f (Effect.logInfo m) = none)
    (hWarn : ∀ m, f (Effect.logWarning m) = none) :
    List.filterMap f (skipTrace inp) = [] := by
  rw [List.filterMap_eq_nil_iff]
  intro e he
  rcases mem_skipTrace inp e he with rfl | rfl | rfl
  · exact hInfo _
  · exact hWarn _
  · exact hWarn _

/-! ## Decomposition of `tryBody` and `run` -/

/-- The extra `setFailed` effect appended by the `catch` block of `run`. -/
def failTail (r : Except String (Option String)) : List Effect :=
  match r with
  | Except.ok _ => []
  | Except.error e => [Effect.setFailed (failurePrefix ++ e)]

theorem run_trace_of_not_forbidden (inp : Inputs) (env : Env)
    (hsub : env.subscription ≠ SubStatus.forbidden) :
    (run inp env).1 =
      subscriptionTrace env.subscription ++ preTrace env ++ (tryBody inp env).1
        ++ failTail (tryBody inp env).2 ∧
    (run inp env).2 = RunResult.completed := by
  unfold run
  cases hs : env.subscription with
  | forbidden => exact absurd hs hsub
  | ok =>
    rcases htb : tryBody inp env with ⟨tb, r⟩
    cases r <;> simp [failTail, List.append_assoc]
  | failedOther =>
    rcases htb : tryBody inp env with ⟨tb, r⟩
    cases r <;> simp [failTail, List.append_assoc]

/-- The five possible shapes of the `try` body's trace: an exception in one
of the four phases, or full success ending in the `setOutput`. -/
theorem tryBody_cases (inp : Inputs) (env : Env) :
    (∃ e, (phaseInstall inp env).2 = Except.error e ∧
      (tryBody inp env).1 = (phaseInstall inp env).1 ∧
      (tryBody inp env).2 = Except.error e) ∨
    (∃ v e, (phaseInstall inp env).2 = Except.ok v ∧
      (phaseComponents inp env).2 = Except.error e ∧
      (tryBody inp env).1 = (phaseInstall inp env).1 ++ (phaseComponents inp env).1 ∧
      (tryBody inp env).2 = Except.error e) ∨
    (∃ v e, (phaseInstall inp env).2 = Except.ok v ∧
      (phaseComponents inp env).2 = Except.ok () ∧
      (phaseAuth env).2 = Except.error e ∧
      (tryBody inp env).1 =
        (phaseInstall inp env).1 ++ (phaseComponents inp env).1 ++ (phaseAuth env).1 ∧
      (tryBody inp env).2 = Except.error e) ∨
    (∃ v e, (phaseInstall inp env).2 = Except.ok v ∧
      (phaseComponents inp env).2 = Except.ok () ∧
      (phaseAuth env).2 = Except.ok () ∧
      (phaseProject inp env).2 = Except.error e ∧
      (tryBody inp env).1 =
        (phaseInstall inp env).1 ++ (phaseComponents inp env).1 ++ (phaseAuth env).1
          ++ (phaseProject inp env).1 ∧
      (tryBody inp env).2 = Except.error e) ∨
    (∃ v, (phaseInstall inp env).2 = Except.ok v ∧
      (phaseComponents inp env).2 = Except.ok () ∧
      (phaseAuth env).2 = Except.ok () ∧
      (phaseProject inp env).2 = Except.ok () ∧
      (tryBody inp env).1 =
        (phaseInstall inp env).1 ++ (phaseComponents inp env).1 ++ (phaseAuth env).1
          ++ (phaseProject inp env).1 ++ [Effect.setOutput "version" v] ∧
      (tryBody inp env).2 = Except.ok v) := by
  unfold tryBody
  rcases h1 : phaseInstall inp env with ⟨t1, r1⟩
  cases r1 with
  | error e => exact Or.inl ⟨e, rfl, by simp [h1], by simp [h1]⟩
  | ok v =>
    rcases h2 : phaseComponents inp env with ⟨t2, r2⟩
    cases r2 with
    | error e =>
      exact Or.inr (Or.inl ⟨v, e, rfl, rfl, by simp [h1, h2], by simp [h1, h2]⟩)
    | ok u =>
      cases u
      rcases h3 : phaseAuth env with ⟨t3, r3⟩
      cases r3 with
      | error e =>
        exact Or.inr (Or.inr (Or.inl ⟨v, e, rfl, rfl, rfl,
          by simp [h1, h2, h3], by simp [h1, h2, h3]⟩))
      | ok u =>
        cases u
        rcases h4 : phaseProject inp env with ⟨t4, r4⟩
        cases r4 with
        | error e =>
          exact Or.inr (Or.inr (Or.inr (Or.inl ⟨v, e, rfl, rfl, rfl, rfl,
            by simp [h1, h2, h3, h4], by simp [h1, h2, h3, h4]⟩)))
        | ok u =>
          cases u
          exact Or.inr (Or.inr (Or.inr (Or.inr ⟨v, rfl, rfl, rfl, rfl,
            by simp [h1, h2, h3, h4], by simp [h1, h2, h3, h4]⟩)))

theorem filterMap_failTail {α : Type} (r : Except String (Option String)) (f : Effect → Option α)
    (hFail : ∀ m, f (Effect.setFailed m) = none) :
    List.filterMap f (failTail r) = [] := by
  cases r <;> simp [failTail, hFail]

theorem count_failTail (r : Except String (Option String)) (a : Effect)
    (hFail : ∀ m, a ≠ Effect.setFailed m) :
    (failTail r).count a = 0 := by
  cases r with
  | error e => simp [failTail, List.count_cons, (hFail (failurePrefix ++ e)).symm]
  | ok v => simp [failTail]

theorem tryBody_trace_prefix (inp : Inputs) (env : Env) :
    ∃ rest, (tryBody inp env).1 = (phaseInstall inp env).1 ++ rest := by
  rcases tryBody_cases inp env with ⟨e, _, ht, _⟩ | ⟨v, e, _, _, ht, _⟩ |
      ⟨v, e, _, _, _, ht, _⟩ | ⟨v, e, _, _, _, _, ht, _⟩ | ⟨v, _, _, _, _, ht, _⟩ <;>
    rw [ht]
  · exact ⟨[], by simp⟩
  · exact ⟨(phaseComponents inp env).1, rfl⟩
  · exact ⟨(phaseComponents inp env).1 ++ (phaseAuth env).1, by simp [List.append_assoc]⟩
  · exact ⟨(phaseComponents inp env).1 ++ (phaseAuth env).1 ++ (phaseProject inp env).1,
      by simp [List.append_assoc]⟩
  · exact ⟨(phaseComponents inp env).1 ++ (phaseAuth env).1 ++ (phaseProject inp env).1
      ++ [Effect.setOutput "version" v], by simp [List.append_assoc]⟩

theorem tryBody_ok_version (inp : Inputs) (env : Env) (v : Option String)
    (h : (tryBody inp env).2 = Except.ok v) :
    (phaseInstall inp env).2 = Except.ok v := by
  rcases tryBody_cases inp env with ⟨e, h1, _, h2⟩ | ⟨w, e, h1, _, _, h2⟩ |
      ⟨w, e, h1, _, _, _, h2⟩ | ⟨w, e, h1, _, _, _, _, h2⟩ | ⟨w, h1, _, _, _, _, h2⟩ <;>
    rw [h2] at h
  · cases h
  · cases h
  · cases h
  · cases h
  · rw [h1]; cases h; rfl

theorem installCalls_tryBody (inp : Inputs) (env : Env) :
    installCalls (tryBody inp env).1 = installCalls (phaseInstall inp env).1 := by
  have hc : List.filterMap selInstall (phaseComponents inp env).1 = [] :=
    filterMap_phaseComponents inp env selInstall (fun _ => rfl)
  have ha : List.filterMap selInstall (phaseAuth env).1 = [] :=
    filterMap_phaseAuth env selInstall (fun _ => rfl) (fun _ => rfl) rfl (fun _ => rfl)
  have hp : List.filterMap selInstall (phaseProject inp env).1 = [] :=
    filterMap_phaseProject inp env selInstall (fun _ => rfl) (fun _ => rfl)
  rcases tryBody_cases inp env with ⟨e, _, ht, _⟩ | ⟨v, e, _, _, ht, _⟩ |
      ⟨v, e, _, _, _, ht, _⟩ | ⟨v, e, _, _, _, _, ht, _⟩ | ⟨v, _, _, _, _, ht, _⟩ <;>
    simp [installCalls, ht, List.filterMap_append, hc, ha, hp, selInstall]

theorem findCalls_tryBody (inp : Inputs) (env : Env) :
    findCalls (tryBody inp env).1 = findCalls (phaseInstall inp env).1 := by
  have hc : List.filterMap selFind (phaseComponents inp env).1 = [] :=
    filterMap_phaseComponents inp env selFind (fun _ => rfl)
  have ha : List.filterMap selFind (phaseAuth env).1 = [] :=
    filterMap_phaseAuth env selFind (fun _ => rfl) (fun _ => rfl) rfl (fun _ => rfl)
  have hp : List.filterMap selFind (phaseProject inp env).1 = [] :=
    filterMap_phaseProject inp env selFind (fun _ => rfl) (fun _ => rfl)
  rcases tryBody_cases inp env with ⟨e, _, ht, _⟩ | ⟨v, e, _, _, ht, _⟩ |
      ⟨v, e, _, _, _, ht, _⟩ | ⟨v, e, _, _, _, _, ht, _⟩ | ⟨v, _, _, _, _, ht, _⟩ <;>
    simp [findCalls, ht, List.filterMap_append, hc, ha, hp, selFind]

theorem bestVersionCalls_tryBody (inp : Inputs) (env : Env) :
    bestVersionCalls (tryBody inp env).1 = bestVersionCalls (phaseInstall inp env).1 := by
  have hc : List.filterMap selBestVersion (phaseComponents inp env).1 = [] :=
    filterMap_phaseComponents inp env selBestVersion (fun _ => rfl)
  have ha : List.filterMap selBestVersion (phaseAuth env).1 = [] :=
    filterMap_phaseAuth env selBestVersion (fun _ => rfl) (fun _ => rfl) rfl (fun _ => rfl)
  have hp : List.filterMap selBestVersion (phaseProject inp env).1 = [] :=
    filterMap_phaseProject inp env selBestVersion (fun _ => rfl) (fun _ => rfl)
  rcases tryBody_cases inp env with ⟨e, _, ht, _⟩ | ⟨v, e, _, _, ht, _⟩ |
      ⟨v, e, _, _, _, ht, _⟩ | ⟨v, e, _, _, _, _, ht, _⟩ | ⟨v, _, _, _, _, ht, _⟩ <;>
    simp [bestVersionCalls, ht, List.filterMap_append, hc, ha, hp, selBestVersion]

theorem componentCalls_tryBody (inp : Inputs) (env : Env) (v : Option String)
    (h1 : (phaseInstall inp env).2 = Except.ok v) :
    componentCalls (tryBody inp env).1 = componentCalls (phaseComponents inp env).1 := by
  have hi : List.filterMap selComponent (phaseInstall inp env).1 = [] :=
    componentCalls_phaseInstall inp env
  have ha : List.filterMap selComponent (phaseAuth env).1 = [] :=
    filterMap_phaseAuth env selComponent (fun _ => rfl) (fun _ => rfl) rfl (fun _ => rfl)
  have hp : List.filterMap selComponent (phaseProject inp env).1 = [] :=
    filterMap_phaseProject inp env selComponent (fun _ => rfl) (fun _ => rfl)
  rcases tryBody_cases inp env with ⟨e, he, ht, _⟩ | ⟨w, e, _, _, ht, _⟩ |
      ⟨w, e, _, _, _, ht, _⟩ | ⟨w, e, _, _, _, _, ht, _⟩ | ⟨w, _, _, _, _, ht, _⟩
  · rw [h1] at he; cases he
  all_goals
    simp [componentCalls, ht, List.filterMap_append, hi, ha, hp, selComponent]

theorem authCalls_tryBody (inp : Inputs) (env : Env) (v : Option String)
    (h1 : (phaseInstall inp env).2 = Except.ok v)
    (h2 : (phaseComponents inp env).2 = Except.ok ()) :
    authCalls (tryBody inp env).1 = authCalls (phaseAuth env).1 := by
  have hi : List.filterMap selAuth (phaseInstall inp env).1 = [] :=
    authCalls_phaseInstall inp env
  have hc : List.filterMap selAuth (phaseComponents inp env).1 = [] :=
    filterMap_phaseComponents inp env selAuth (fun _ => rfl)
  have hp : List.filterMap selAuth (phaseProject inp env).1 = [] :=
    filterMap_phaseProject inp env selAuth (fun _ => rfl) (fun _ => rfl)
  rcases tryBody_cases inp env with ⟨e, he, ht, _⟩ | ⟨w, e, _, he, ht, _⟩ |
      ⟨w, e, _, _, _, ht, _⟩ | ⟨w, e, _, _, _, _, ht, _⟩ | ⟨w, _, _, _, _, ht, _⟩
  · rw [h1] at he; cases he
  · rw [h2] at he; cases he
  all_goals
    simp [authCalls, ht, List.filterMap_append, hi, hc, hp, selAuth]

theorem isAuthenticatedCalls_tryBody (inp : Inputs) (env : Env) (v : Option String)
    (h1 : (phaseInstall inp env).2 = Except.ok v)
    (h2 : (phaseComponents inp env).2 = Except.ok ()) :
    isAuthenticatedCalls (tryBody inp env).1 = isAuthenticatedCalls (phaseAuth env).1 := by
  have hi : (phaseInstall inp env).1.count Effect.callIsAuthenticated = 0 :=
    isAuthenticatedCalls_phaseInstall inp env
  have hc : (phaseComponents inp env).1.count Effect.callIsAuthenticated = 0 :=
    count_phaseComponents inp env _ (fun _ => by simp)
  have hp : (phaseProject inp env).1.count Effect.callIsAuthenticated = 0 :=
    count_phaseProject inp env _ (fun _ => by simp) (fun _ => by simp)
  rcases tryBody_cases inp env with ⟨e, he, ht, _⟩ | ⟨w, e, _, he, ht, _⟩ |
      ⟨w, e, _, _, _, ht, _⟩ | ⟨w, e, _, _, _, _, ht, _⟩ | ⟨w, _, _, _, _, ht, _⟩
  · rw [h1] at he; cases he
  · rw [h2] at he; cases he
  all_goals
    simp [isAuthenticatedCalls, ht, List.count_append, hi, hc, hp]

theorem outputsOf_tryBody (inp : Inputs) (env : Env) :
    outputsOf (tryBody inp env).1 =
      (match (tryBody inp env).2 with
       | Except.ok v => [("version", v)]
       | Except.error _ => []) := by
  have hi : List.filterMap selOutput (phaseInstall inp env).1 = [] :=
    outputsOf_phaseInstall inp env
  have hc : List.filterMap selOutput (phaseComponents inp env).1 = [] :=
    filterMap_phaseComponents inp env selOutput (fun _ => rfl)
  have ha : List.filterMap selOutput (phaseAuth env).1 = [] :=
    filterMap_phaseAuth env selOutput (fun _ => rfl) (fun _ => rfl) rfl (fun _ => rfl)
  have hp : List.filterMap selOutput (phaseProject inp env).1 = [] :=
    filterMap_phaseProject inp env selOutput (fun _ => rfl) (fun _ => rfl)
  rcases tryBody_cases inp env with ⟨e, _, ht, hr⟩ | ⟨v, e, _, _, ht, hr⟩ |
      ⟨v, e, _, _, _, ht, hr⟩ | ⟨v, e, _, _, _, _, ht, hr⟩ | ⟨v, _, _, _, _, ht, hr⟩ <;>
    rw [hr] <;>
    simp [outputsOf, ht, List.filterMap_append, hi, hc, ha, hp, selOutput]

theorem warningCount_tryBody_ignore (inp : Inputs) (env : Env) :
    warningCount (tryBody inp env).1 ignoreVersionWarningMsg =
      warningCount (phaseInstall inp env).1 ignoreVersionWarningMsg := by
  have hc : (phaseComponents inp env).1.count (Effect.logWarning ignoreVersionWarningMsg) = 0 :=
    count_phaseComponents inp env _ (fun _ => by simp)
  have ha : (phaseAuth env).1.count (Effect.logWarning ignoreVersionWarningMsg) = 0 :=
    count_phaseAuth env _ (fun _ => by simp) (fun _ => by simp) (by simp)
      (fun h => auth_ne_ignore (Effect.logWarning.inj h).symm)
  have hp : (phaseProject inp env).1.count (Effect.logWarning ignoreVersionWarningMsg) = 0 :=
    count_phaseProject inp env _ (fun _ => by simp) (fun _ => by simp)
  rcases tryBody_cases inp env with ⟨e, _, ht, _⟩ | ⟨v, e, _, _, ht, _⟩ |
      ⟨v, e, _, _, _, ht, _⟩ | ⟨v, e, _, _, _, _, ht, _⟩ | ⟨v, _, _, _, _, ht, _⟩ <;>
    simp [warningCount, ht, List.count_append, hc, ha, hp]

theorem warningCount_tryBody_auth (inp : Inputs) (env : Env) (v : Option String)
    (h1 : (phaseInstall inp env).2 = Except.ok v)
    (h2 : (phaseComponents inp env).2 = Except.ok ()) :
    warningCount (tryBody inp env).1 authWarningMsg =
      warningCount (phaseAuth env).1 authWarningMsg := by
  have hi : (phaseInstall inp env).1.count (Effect.logWarning authWarningMsg) = 0 :=
    warningCount_phaseInstall_auth inp env
  have hc : (phaseComponents inp env).1.count (Effect.logWarning authWarningMsg) = 0 :=
    count_phaseComponents inp env _ (fun _ => by simp)
  have hp : (phaseProject inp env).1.count (Effect.logWarning authWarningMsg) = 0 :=
    count_phaseProject inp env _ (fun _ => by simp) (fun _ => by simp)
  rcases tryBody_cases inp env with ⟨e, he, ht, _⟩ | ⟨w, e, _, he, ht, _⟩ |
      ⟨w, e, _, _, _, ht, _⟩ | ⟨w, e, _, _, _, _, ht, _⟩ | ⟨w, _, _, _, _, ht, _⟩
  · rw [h1] at he; cases he
  · rw [h2] at he; cases he
  all_goals
    simp [warningCount, ht, List.count_append, hi, hc, hp]

theorem installCalls_run (inp : Inputs) (env : Env)
    (hsub : env.subscription ≠ SubStatus.forbidden) :
    installCalls (run inp env).1 = installCalls (phaseInstall inp env).1 := by
  obtain ⟨htr, _⟩ := run_trace_of_not_forbidden inp env hsub
  have hs : List.filterMap selInstall (subscriptionTrace env.subscription) = [] :=
    filterMap_subscriptionTrace _ selInstall (fun _ => rfl) (fun _ => rfl)
  have hpre : List.filterMap selInstall (preTrace env) = [] :=
    filterMap_preTrace env selInstall (fun _ _ => rfl) (fun _ _ => rfl) (fun _ => rfl)
  have hft : List.filterMap selInstall (failTail (tryBody inp env).2) = [] :=
    filterMap_failTail _ selInstall (fun _ => rfl)
  have htb : installCalls (tryBody inp env).1 = installCalls (phaseInstall inp env).1 :=
    installCalls_tryBody inp env
  simp only [installCalls] at htb ⊢
  rw [htr]
  simp [List.filterMap_append, hs, hpre, hft, htb]

theorem findCalls_run (inp : Inputs) (env : Env)
    (hsub : env.subscription ≠ SubStatus.forbidden) :
    findCalls (run inp env).1 = findCalls (phaseInstall inp env).1 := by
  obtain ⟨htr, _⟩ := run_trace_of_not_forbidden inp env hsub
  have hs : List.filterMap selFind (subscriptionTrace env.subscription) = [] :=
    filterMap_subscriptionTrace _ selFind (fun _ => rfl) (fun _ => rfl)
  have hpre : List.filterMap selFind (preTrace env) = [] :=
    filterMap_preTrace env selFind (fun _ _ => rfl) (fun _ _ => rfl) (fun _ => rfl)
  have hft : List.filterMap selFind (failTail (tryBody inp env).2) = [] :=
    filterMap_failTail _ selFind (fun _ => rfl)
  have htb : findCalls (tryBody inp env).1 = findCalls (phaseInstall inp env).1 :=
    findCalls_tryBody inp env
  simp only [findCalls] at htb ⊢
  rw [htr]
  simp [List.filterMap_append, hs, hpre, hft, htb]

theorem bestVersionCalls_run (inp : Inputs) (env : Env)
    (hsub : env.subscription ≠ SubStatus.forbidden) :
    bestVersionCalls (run inp env).1 = bestVersionCalls (phaseInstall inp env).1 := by
  obtain ⟨htr, _⟩ := run_trace_of_not_forbidden inp env hsub
  have hs : List.filterMap selBestVersion (subscriptionTrace env.subscription) = [] :=
    filterMap_subscriptionTrace _ selBestVersion (fun _ => rfl) (fun _ => rfl)
  have hpre : List.filterMap selBestVersion (preTrace env) = [] :=
    filterMap_preTrace env selBestVersion (fun _ _ => rfl) (fun _ _ => rfl) (fun _ => rfl)
  have hft : List.filterMap selBestVersion (failTail (tryBody inp env).2) = [] :=
    filterMap_failTail _ selBestVersion (fun _ => rfl)
  have htb : bestVersionCalls (tryBody inp env).1 = bestVersionCalls (phaseInstall inp env).1 :=
    bestVersionCalls_tryBody inp env
  simp only [bestVersionCalls] at htb ⊢
  rw [htr]
  simp [List.filterMap_append, hs, hpre, hft, htb]

theorem componentCalls_run (inp : Inputs) (env : Env) (v : Option String)
    (hsub : env.subscription ≠ SubStatus.forbidden)
    (h1 : (phaseInstall inp env).2 = Except.ok v) :
    componentCalls (run inp env).1 = componentCalls (phaseComponents inp env).1 := by
  obtain ⟨htr, _⟩ := run_trace_of_not_forbidden inp env hsub
  have hs : List.filterMap selComponent (subscriptionTrace env.subscription) = [] :=
    filterMap_subscriptionTrace _ selComponent (fun _ => rfl) (fun _ => rfl)
  have hpre : List.filterMap selComponent (preTrace env) = [] :=
    filterMap_preTrace env selComponent (fun _ _ => rfl) (fun _ _ => rfl) (fun _ => rfl)
  have hft : List.filterMap selComponent (failTail (tryBody inp env).2) = [] :=
    filterMap_failTail _ selComponent (fun _ => rfl)
  have htb : componentCalls (tryBody inp env).1 = componentCalls (phaseComponents inp env).1 :=
    componentCalls_tryBody inp env v h1
  simp only [componentCalls] at htb ⊢
  rw [htr]
  simp [List.filterMap_append, hs, hpre, hft, htb]

theorem authCalls_run (inp : Inputs) (env : Env) (v : Option String)
    (hsub : env.subscription ≠ SubStatus.forbidden)
    (h1 : (phaseInstall inp env).2 = Except.ok v)
    (h2 : (phaseComponents inp env).2 = Except.ok ()) :
    authCalls (run inp env).1 = authCalls (phaseAuth env).1 := by
  obtain ⟨htr, _⟩ := run_trace_of_not_forbidden inp env hsub
  have hs : List.filterMap selAuth (subscriptionTrace env.subscription) = [] :=
    filterMap_subscriptionTrace _ selAuth (fun _ => rfl) (fun _ => rfl)
  have hpre : List.filterMap selAuth (preTrace env) = [] :=
    filterMap_preTrace env selAuth (fun _ _ => rfl) (fun _ _ => rfl) (fun _ => rfl)
  have hft : List.filterMap selAuth (failTail (tryBody inp env).2) = [] :=
    filterMap_failTail _ selAuth (fun _ => rfl)
  have htb : authCalls (tryBody inp env).1 = authCalls (phaseAuth env).1 :=
    authCalls_tryBody inp env v h1 h2
  simp only [authCalls] at htb ⊢
  rw [htr]
  simp [List.filterMap_append, hs, hpre, hft, htb]

theorem isAuthenticatedCalls_run (inp : Inputs) (env : Env) (v : Option String)
    (hsub : env.subscription ≠ SubStatus.forbidden)
    (h1 : (phaseInstall inp env).2 = Except.ok v)
    (h2 : (phaseComponents inp env).2 = Except.ok ()) :
    isAuthenticatedCalls (run inp env).1 = isAuthenticatedCalls (phaseAuth env).1 := by
  obtain ⟨htr, _⟩ := run_trace_of_not_forbidden inp env hsub
  have hs : (subscriptionTrace env.subscription).count Effect.callIsAuthenticated = 0 :=
    count_subscriptionTrace _ _ (fun _ => by simp) (fun _ => by simp)
  have hpre : (preTrace env).count Effect.callIsAuthenticated = 0 :=
    count_preTrace env _ (fun _ _ => by simp) (fun _ _ => by simp) (by simp)
  have hft : (failTail (tryBody inp env).2).count Effect.callIsAuthenticated = 0 :=
    count_failTail _ _ (fun _ => by simp)
  have htb : isAuthenticatedCalls (tryBody inp env).1 = isAuthenticatedCalls (phaseAuth env).1 :=
    isAuthenticatedCalls_tryBody inp env v h1 h2
  simp only [isAuthenticatedCalls] at htb ⊢
  rw [htr]
  simp [List.count_append, hs, hpre, hft, htb]

theorem outputsOf_run (inp : Inputs) (env : Env)
    (hsub : env.subscription ≠ SubStatus.forbidden) :
    outputsOf (run inp env).1 =
      (match (tryBody inp env).2 with
       | Except.ok v => [("version", v)]
       | Except.error _ => []) := by
  obtain ⟨htr, _⟩ := run_trace_of_not_forbidden inp env hsub
  have hs : List.filterMap selOutput (subscriptionTrace env.subscription) = [] :=
    filterMap_subscriptionTrace _ selOutput (fun _ => rfl) (fun _ => rfl)
  have hpre : List.filterMap selOutput (preTrace env) = [] :=
    filterMap_preTrace env selOutput (fun _ _ => rfl) (fun _ _ => rfl) (fun _ => rfl)
  have hft : List.filterMap selOutput (failTail (tryBody inp env).2) = [] :=
    filterMap_failTail _ selOutput (fun _ => rfl)
  have htb := outputsOf_tryBody inp env
  simp only [outputsOf] at htb ⊢
  rw [htr]
  simp [List.filterMap_append, hs, hpre, hft, htb]

theorem exportVarCalls_tryBody (inp : Inputs) (env : Env) :
    List.filterMap selExportVar (tryBody inp env).1 = [] := by
  have hi : List.filterMap selExportVar (phaseInstall inp env).1 = [] :=
    exportVarCalls_phaseInstall inp env
  have hc : List.filterMap selExportVar (phaseComponents inp env).1 = [] :=
    filterMap_phaseComponents inp env selExportVar (fun _ => rfl)
  have ha : List.filterMap selExportVar (phaseAuth env).1 = [] :=
    filterMap_phaseAuth env selExportVar (fun _ => rfl) (fun _ => rfl) rfl (fun _ => rfl)
  have hp : List.filterMap selExportVar (phaseProject inp env).1 = [] :=
    filterMap_phaseProject inp env selExportVar (fun _ => rfl) (fun _ => rfl)
  rcases tryBody_cases inp env with ⟨e, _, ht, _⟩ | ⟨v, e, _, _, ht, _⟩ |
      ⟨v, e, _, _, _, ht, _⟩ | ⟨v, e, _, _, _, _, ht, _⟩ | ⟨v, _, _, _, _, ht, _⟩ <;>
    simp [ht, List.filterMap_append, hi, hc, ha, hp, selExportVar]

theorem exportVarCalls_preTrace (env : Env) :
    exportVarCalls (preTrace env) =
      [("CLOUDSDK_METRICS_ENVIRONMENT", "github-actions-setup-gcloud"),
       ("CLOUDSDK_METRICS_ENVIRONMENT_VERSION", env.appVersion)] := by
  unfold preTrace exportVarCalls
  cases hp : env.pinnedToHead <;> simp [hp, selExportVar]

theorem exportVarCalls_run (inp : Inputs) (env : Env)
    (hsub : env.subscription ≠ SubStatus.forbidden) :
    exportVarCalls (run inp env).1 =
      [("CLOUDSDK_METRICS_ENVIRONMENT", "github-actions-setup-gcloud"),
       ("CLOUDSDK_METRICS_ENVIRONMENT_VERSION", env.appVersion)] := by
  obtain ⟨htr, _⟩ := run_trace_of_not_forbidden inp env hsub
  have hs : List.filterMap selExportVar (subscriptionTrace env.subscription) = [] :=
    filterMap_subscriptionTrace _ selExportVar (fun _ => rfl) (fun _ => rfl)
  have hft : List.filterMap selExportVar (failTail (tryBody inp env).2) = [] :=
    filterMap_failTail _ selExportVar (fun _ => rfl)
  have htb := exportVarCalls_tryBody inp env
  have hpre := exportVarCalls_preTrace env
  simp only [exportVarCalls] at hpre ⊢
  rw [htr]
  simp [List.filterMap_append, hs, hft, htb, hpre]

theorem mem_run_of_tryBody (inp : Inputs) (env : Env) (e : Effect)
    (hsub : env.subscription ≠ SubStatus.forbidden)
    (h : e ∈ (tryBody inp env).1) : e ∈ (run inp env).1 := by
  obtain ⟨htr, _⟩ := run_trace_of_not_forbidden inp env hsub
  rw [htr]
  simp [List.mem_append]
  tauto

theorem mem_run_of_preTrace (inp : Inputs) (env : Env) (e : Effect)
    (hsub : env.subscription ≠ SubStatus.forbidden)
    (h : e ∈ preTrace env) : e ∈ (run inp env).1 := by
  obtain ⟨htr, _⟩ := run_trace_of_not_forbidden inp env hsub
  rw [htr]
  simp [List.mem_append]
  tauto

theorem setFailed_mem_run (inp : Inputs) (env : Env) (e : String)
    (hsub : env.subscription ≠ SubStatus.forbidden)
    (herr : (tryBody inp env).2 = Except.error e) :
    Effect.setFailed (failurePrefix ++ e) ∈ (run inp env).1 := by
  obtain ⟨htr, _⟩ := run_trace_of_not_forbidden inp env hsub
  rw [htr, herr]
  simp [failTail, List.mem_append]

theorem warningCount_run_ignore (inp : Inputs) (env : Env)
    (hsub : env.subscription ≠ SubStatus.forbidden) :
    warningCount (run inp env).1 ignoreVersionWarningMsg =
      warningCount (phaseInstall inp env).1 ignoreVersionWarningMsg := by
  obtain ⟨htr, _⟩ := run_trace_of_not_forbidden inp env hsub
  have hs : (subscriptionTrace env.subscription).count
      (Effect.logWarning ignoreVersionWarningMsg) = 0 :=
    count_subscriptionTrace _ _ (fun _ => by simp) (fun _ => by simp)
  have hpre : (preTrace env).count (Effect.logWarning ignoreVersionWarningMsg) = 0 :=
    count_preTrace env _ (fun _ _ => by simp) (fun _ _ => by simp)
      (fun h => pinned_ne_ignore (Effect.logWarning.inj h).symm)
  have hft : (failTail (tryBody inp env).2).count
      (Effect.logWarning ignoreVersionWarningMsg) = 0 :=
    count_failTail _ _ (fun _ => by simp)
  have htb := warningCount_tryBody_ignore inp env
  simp only [warningCount] at htb ⊢
  rw [htr]
  simp [List.count_append, hs, hpre, hft, htb]

theorem warningCount_run_auth (inp : Inputs) (env : Env) (v : Option String)
    (hsub : env.subscription ≠ SubStatus.forbidden)
    (h1 : (phaseInstall inp env).2 = Except.ok v)
    (h2 : (phaseComponents inp env).2 = Except.ok ()) :
    warningCount (run inp env).1 authWarningMsg =
      warningCount (phaseAuth env).1 authWarningMsg := by
  obtain ⟨htr, _⟩ := run_trace_of_not_forbidden inp env hsub
  have hs : (subscriptionTrace env.subscription).count (Effect.logWarning authWarningMsg) = 0 :=
    count_subscriptionTrace _ _ (fun _ => by simp) (fun _ => by simp)
  have hpre : (preTrace env).count (Effect.logWarning authWarningMsg) = 0 :=
    count_preTrace env _ (fun _ _ => by simp) (fun _ _ => by simp)
      (fun h => pinned_ne_auth (Effect.logWarning.inj h).symm)
  have hft : (failTail (tryBody inp env).2).count (Effect.logWarning authWarningMsg) = 0 :=
    count_failTail _ _ (fun _ => by simp)
  have htb := warningCount_tryBody_auth inp env v h1 h2
  simp only [warningCount] at htb ⊢
  rw [htr]
  simp [List.count_append, hs, hpre, hft, htb]

/-! ## Characterizations of the install phase -/

theorem phaseInstall_skip (inp : Inputs) (env : Env) (h : inp.skipInstall = true) :
    phaseInstall inp env = (skipTrace inp, Except.ok (presence inp.version)) := by
  unfold phaseInstall
  simp [h]

theorem phaseInstall_notLatest (inp : Inputs) (env : Env) (hs : inp.skipInstall = false)
    (hl : resolvedConstraint inp ≠ "latest") :
    phaseInstall inp env =
      installStep inp env (resolvedConstraint inp) (unsetDebugTrace inp) := by
  unfold phaseInstall
  simp [hs, hl]

theorem phaseInstall_latest (inp : Inputs) (env : Env) (r : String)
    (hs : inp.skipInstall = false) (hl : resolvedConstraint inp = "latest")
    (hres : env.bestVersion "> 0.0.0" = Except.ok r) :
    phaseInstall inp env =
      installStep inp env r
        (unsetDebugTrace inp ++ [Effect.logDebug "resolving latest version",
          Effect.callBestVersion "> 0.0.0",
          Effect.logDebug ("resolved latest version to " ++ r)]) := by
  unfold phaseInstall
  simp [hs, hl, hres, List.append_assoc]

theorem installStep_found (inp : Inputs) (env : Env) (v : String) (t : List Effect)
    (hf : env.toolCacheFind "gcloud" v ≠ "") :
    installStep inp env v t =
      (t ++ [Effect.callToolCacheFind "gcloud" v,
             Effect.addPath (env.toolCacheFind "gcloud" v ++ "/bin")],
       Except.ok (some v)) := by
  unfold installStep
  simp [hf, List.append_assoc]

theorem installStep_miss (inp : Inputs) (env : Env) (v : String) (t : List Effect)
    (hf : env.toolCacheFind "gcloud" v = "") :
    installStep inp env v t =
      (t ++ [Effect.callToolCacheFind "gcloud" v,
             Effect.logDebug ("no version of gcloud matching \"" ++ v ++ "\" is installed"),
             Effect.callInstallGcloudSDK v inp.cache],
       match env.installGcloudSDK v inp.cache with
       | Except.error e => Except.error e
       | Except.ok _ => Except.ok (some v)) := by
  unfold installStep
  cases hi : env.installGcloudSDK v inp.cache <;> simp [hf, hi, List.append_assoc]

theorem installStep_snd_ok (inp : Inputs) (env : Env) (v : String) (t : List Effect)
    (w : Option String) (h : (installStep inp env v t).2 = Except.ok w) : w = some v := by
  unfold installStep at h
  by_cases hf : env.toolCacheFind "gcloud" v = ""
  · cases hi : env.installGcloudSDK v inp.cache <;> rw [hi] at h <;> simp [hf] at h <;>
      first
      | exact h.symm
      | cases h
  · simp [hf] at h
    exact h.symm

theorem filterMap_unsetDebugTrace {α : Type} (inp : Inputs) (f : Effect → Option α)
    (hDebug : ∀ m, f (Effect.logDebug m) = none) :
    List.filterMap f (unsetDebugTrace inp) = [] := by
  unfold unsetDebugTrace
  rcases hp : presence inp.version with _ | v <;> simp [hDebug]

/-! ## Claim theorems -/

/-- C1 counterexample: with `skip_install = true` and `version = "1.2.3"`,
the step output `version` is not absent — line 149 runs unconditionally and
reports the supplied pinned version. -/
theorem c1_counterexample :
    outputsOf (run ⟨true, "1.2.3", "", "", false⟩ envOk).1 = [("version", some "1.2.3")] := by
  decide

/-- C1 (amended): for every run with `skipInstall = true`, no install,
cache-probe or latest-resolution operation is invoked, but the step output
`version` is not left absent: when the run completes it is set to the
`presence`-normalized supplied version input (so a supplied pinned version
such as `"1.2.3"` IS reported as the output). -/
theorem c1_skip_install_no_provisioning (inp : Inputs) (env : Env)
    (hsub : env.subscription ≠ SubStatus.forbidden)
    (hskip : inp.skipInstall = true) :
    installCalls (run inp env).1 = [] ∧ findCalls (run inp env).1 = [] ∧
    bestVersionCalls (run inp env).1 = [] ∧
    ∀ p ∈ outputsOf (run inp env).1, p = ("version", presence inp.version) := by
  have hpi := phaseInstall_skip inp env hskip
  refine ⟨?_, ?_, ?_, ?_⟩
  · rw [installCalls_run inp env hsub, hpi]
    exact filterMap_skipTrace inp selInstall (fun _ => rfl) (fun _ => rfl)
  · rw [findCalls_run inp env hsub, hpi]
    exact filterMap_skipTrace inp selFind (fun _ => rfl) (fun _ => rfl)
  · rw [bestVersionCalls_run inp env hsub, hpi]
    exact filterMap_skipTrace inp selBestVersion (fun _ => rfl) (fun _ => rfl)
  · intro p hp
    rw [outputsOf_run inp env hsub] at hp
    cases hr : (tryBody inp env).2 with
    | error e => rw [hr] at hp; simp at hp
    | ok v =>
      rw [hr] at hp
      simp at hp
      have hov := tryBody_ok_version inp env v hr
      rw [hpi] at hov
      simp at hov
      rw [hp, hov]

/-- C1 witness: the amended theorem applied at `skip_install = true`,
`version = "1.2.3"` in a fully successful environment. -/
theorem c1_skip_install_no_provisioning_witness :
    installCalls (run ⟨true, "1.2.3", "", "", false⟩ envOk).1 = [] ∧
    findCalls (run ⟨true, "1.2.3", "", "", false⟩ envOk).1 = [] ∧
    bestVersionCalls (run ⟨true, "1.2.3", "", "", false⟩ envOk).1 = [] :=
  ⟨(c1_skip_install_no_provisioning ⟨true, "1.2.3", "", "", false⟩ envOk (by decide) rfl).1,
   (c1_skip_install_no_provisioning ⟨true, "1.2.3", "", "", false⟩ envOk (by decide) rfl).2.1,
   (c1_skip_install_no_provisioning ⟨true, "1.2.3", "", "", false⟩ envOk (by decide) rfl).2.2.1⟩

/-- C2 counterexample: `install_components = "a,b,"` (a stray trailing
comma) is passed to the component-install operation as `["a", "b", ""]`,
which contains an empty entry — the split-and-trim does not drop empties. -/
theorem c2_counterexample :
    componentCalls (run ⟨true, "", "a,b,", "", false⟩ envOk).1 = [["a", "b", ""]] ∧
    "" ∈ (["a", "b", ""] : List String) := by
  constructor <;> decide

/-- C2 (amended): for every supplied `install_components` string, if the
install phase raises no exception, the component-install operation is
invoked exactly once, with the comma-split, per-entry-trimmed list,
preserving order; empty entries produced by stray commas are NOT dropped. -/
theorem c2_components_batched (inp : Inputs) (env : Env) (v : Option String)
    (hsub : env.subscription ≠ SubStatus.forbidden)
    (hcomp : inp.installComponents ≠ "")
    (h1 : (phaseInstall inp env).2 = Except.ok v) :
    componentCalls (run inp env).1 = [componentsListOf inp.installComponents] ∧
    componentsListOf inp.installComponents =
      (jsSplit ',' inp.installComponents).map jsTrim := by
  constructor
  · rw [componentCalls_run inp env v hsub h1]
    unfold componentCalls phaseComponents
    simp [hcomp, selComponent]
  · rfl

/-- C2 witness: the amended theorem applied at
`install_components = " a, b ,c"`, which yields the batched call
`["a", "b", "c"]`. -/
theorem c2_components_batched_witness :
    componentCalls (run ⟨true, "", " a, b ,c", "", false⟩ envOk).1 =
      [componentsListOf " a, b ,c"] ∧
    componentsListOf " a, b ,c" = ["a", "b", "c"] :=
  ⟨(c2_components_batched ⟨true, "", " a, b ,c", "", false⟩ envOk none (by decide)
      (by decide) rfl).1,
   by decide⟩

/-- C3 counterexample: in a concrete run, the persistent export mechanism
(`core.exportVariable`) receives only the two metrics variables;
`CLOUDSDK_CORE_DISABLE_PROMPTS` is set through plain `process.env`
assignment instead — not the same persistent mechanism. -/
theorem c3_counterexample :
    exportVarCalls (run ⟨false, "", "", "", false⟩ envOk).1 =
      [("CLOUDSDK_METRICS_ENVIRONMENT", "github-actions-setup-gcloud"),
       ("CLOUDSDK_METRICS_ENVIRONMENT_VERSION", "1.0.0")] ∧
    Effect.setEnvVar "CLOUDSDK_CORE_DISABLE_PROMPTS" "1"
      ∈ (run ⟨false, "", "", "", false⟩ envOk).1 := by
  constructor <;> decide

/-- C3 (amended): at the start of every run that passes the entitlement
check, `CLOUDSDK_METRICS_ENVIRONMENT` and
`CLOUDSDK_METRICS_ENVIRONMENT_VERSION` are published through the
persistent export mechanism, while `CLOUDSDK_CORE_DISABLE_PROMPTS` is set
only in the current process environment and never goes through the
persistent export mechanism. -/
theorem c3_env_exports (inp : Inputs) (env : Env)
    (hsub : env.subscription ≠ SubStatus.forbidden) :
    exportVarCalls (run inp env).1 =
      [("CLOUDSDK_METRICS_ENVIRONMENT", "github-actions-setup-gcloud"),
       ("CLOUDSDK_METRICS_ENVIRONMENT_VERSION", env.appVersion)] ∧
    Effect.setEnvVar "CLOUDSDK_CORE_DISABLE_PROMPTS" "1" ∈ (run inp env).1 ∧
    ∀ w, ("CLOUDSDK_CORE_DISABLE_PROMPTS", w) ∉ exportVarCalls (run inp env).1 := by
  refine ⟨exportVarCalls_run inp env hsub, ?_, ?_⟩
  · exact mem_run_of_preTrace inp env _ hsub (by unfold preTrace; simp)
  · intro w hw
    rw [exportVarCalls_run inp env hsub] at hw
    simp at hw

/-- C3 witness: the amended theorem applied in a fully successful
environment. -/
theorem c3_env_exports_witness :
    exportVarCalls (run ⟨false, "", "", "", false⟩ envOk).1 =
      [("CLOUDSDK_METRICS_ENVIRONMENT", "github-actions-setup-gcloud"),
       ("CLOUDSDK_METRICS_ENVIRONMENT_VERSION", envOk.appVersion)] ∧
    Effect.setEnvVar "CLOUDSDK_CORE_DISABLE_PROMPTS" "1"
      ∈ (run ⟨false, "", "", "", false⟩ envOk).1 :=
  ⟨(c3_env_exports ⟨false, "", "", "", false⟩ envOk (by decide)).1,
   (c3_env_exports ⟨false, "", "", "", false⟩ envOk (by decide)).2.1⟩

/-- C6: the entitlement check runs before any input parsing; a 403 makes
the whole process exit with status 1 after only a logged error (no
failure message is composed, no other effect happens); any other failure
of the check logs one informational line and the run continues. -/
theorem c6_entitlement_gate (inp : Inputs) (env : Env) :
    (env.subscription = SubStatus.forbidden →
      run inp env = ([Effect.logError subscriptionErrorMsg], RunResult.exited 1)) ∧
    (env.subscription = SubStatus.failedOther →
      (run inp env).2 = RunResult.completed ∧
      Effect.logInfo subscriptionInfoMsg ∈ (run inp env).1 ∧
      Effect.exportVariable "CLOUDSDK_METRICS_ENVIRONMENT" "github-actions-setup-gcloud"
        ∈ (run inp env).1) := by
  constructor
  · intro h
    simp [run, h, subscriptionTrace]
  · intro h
    have hsub : env.subscription ≠ SubStatus.forbidden := by simp [h]
    obtain ⟨htr, hres⟩ := run_trace_of_not_forbidden inp env hsub
    refine ⟨hres, ?_, ?_⟩
    · rw [htr, h]
      simp [subscriptionTrace, List.mem_append]
    · exact mem_run_of_preTrace inp env _ hsub (by unfold preTrace; simp)

/-- C6 witness: the 403 case and the non-403-failure case, instantiated. -/
theorem c6_entitlement_gate_witness :
    run ⟨false, "", "", "", false⟩ envForbidden =
      ([Effect.logError subscriptionErrorMsg], RunResult.exited 1) ∧
    (run ⟨false, "", "", "", false⟩ envFailedOther).2 = RunResult.completed :=
  ⟨(c6_entitlement_gate ⟨false, "", "", "", false⟩ envForbidden).1 rfl,
   ((c6_entitlement_gate ⟨false, "", "", "", false⟩ envFailedOther).2 rfl).1⟩

/-- C7: with `skipInstall = true`, exactly one ignored-version warning is
emitted iff the version input (a string already trimmed by `getInput`) is
set to something other than the literal `"latest"`; when it is `"latest"`
or absent, no such warning is emitted. -/
theorem c7_skip_ignored_version_warning (inp : Inputs) (env : Env)
    (hsub : env.subscription ≠ SubStatus.forbidden)
    (hskip : inp.skipInstall = true)
    (htrim : jsTrim inp.version = inp.version) :
    warningCount (run inp env).1 ignoreVersionWarningMsg =
      (if inp.version ≠ "" ∧ inp.version ≠ "latest" then 1 else 0) := by
  have hpres : presence inp.version = if inp.version = "" then none else some inp.version := by
    unfold presence
    rw [htrim]
  rw [warningCount_run_ignore inp env hsub]
  have hpi := phaseInstall_skip inp env hskip
  rw [hpi]
  show warningCount (skipTrace inp) ignoreVersionWarningMsg = _
  unfold warningCount skipTrace
  rw [hpres]
  by_cases h0 : inp.version = ""
  · by_cases hcp : inp.installComponents = "" <;>
      simp [h0, hcp, List.count_append, List.count_cons, Ne.symm components_ne_ignore]
  · by_cases hl : inp.version = "latest"
    · by_cases hcp : inp.installComponents = "" <;>
        simp [h0, hl, hcp, List.count_append, List.count_cons, Ne.symm components_ne_ignore]
    · by_cases hcp : inp.installComponents = "" <;>
        simp [h0, hl, hcp, List.count_append, List.count_cons, Ne.symm components_ne_ignore]

/-- C7 witness: a pinned version under `skip_install = true` warns exactly
once; the literal `"latest"` does not warn. -/
theorem c7_skip_ignored_version_warning_witness :
    warningCount (run ⟨true, "1.2.3", "", "", false⟩ envOk).1 ignoreVersionWarningMsg =
      (if ("1.2.3" : String) ≠ "" ∧ ("1.2.3" : String) ≠ "latest" then 1 else 0) ∧
    warningCount (run ⟨true, "latest", "", "", false⟩ envOk).1 ignoreVersionWarningMsg =
      (if ("latest" : String) ≠ "" ∧ ("latest" : String) ≠ "latest" then 1 else 0) :=
  ⟨c7_skip_ignored_version_warning ⟨true, "1.2.3", "", "", false⟩ envOk (by decide) rfl
      (by decide),
   c7_skip_ignored_version_warning ⟨true, "latest", "", "", false⟩ envOk (by decide) rfl
      (by decide)⟩

theorem bestVersionCalls_installStep (inp : Inputs) (env : Env) (v : String) (t : List Effect) :
    List.filterMap selBestVersion (installStep inp env v t).1 =
      List.filterMap selBestVersion t := by
  unfold installStep
  by_cases hf : env.toolCacheFind "gcloud" v = ""
  · cases hi : env.installGcloudSDK v inp.cache <;>
      simp [hf, hi, List.filterMap_append, selBestVersion]
  · simp [hf, List.filterMap_append, selBestVersion]

theorem findCalls_installStep (inp : Inputs) (env : Env) (v : String) (t : List Effect) :
    List.filterMap selFind (installStep inp env v t).1 =
      List.filterMap selFind t ++ [("gcloud", v)] := by
  unfold installStep
  by_cases hf : env.toolCacheFind "gcloud" v = ""
  · cases hi : env.installGcloudSDK v inp.cache <;>
      simp [hf, hi, List.filterMap_append, selFind]
  · simp [hf, List.filterMap_append, selFind]

theorem installCalls_installStep (inp : Inputs) (env : Env) (v : String) (t : List Effect) :
    List.filterMap selInstall (installStep inp env v t).1 =
      List.filterMap selInstall t
        ++ (if env.toolCacheFind "gcloud" v = "" then [(v, inp.cache)] else []) := by
  unfold installStep
  by_cases hf : env.toolCacheFind "gcloud" v = ""
  · cases hi : env.installGcloudSDK v inp.cache <;>
      simp [hf, hi, List.filterMap_append, selInstall]
  · simp [hf, List.filterMap_append, selInstall]

theorem mem_run_of_phaseInstall (inp : Inputs) (env : Env) (e : Effect)
    (hsub : env.subscription ≠ SubStatus.forbidden)
    (h : e ∈ (phaseInstall inp env).1) : e ∈ (run inp env).1 := by
  obtain ⟨rest, hrest⟩ := tryBody_trace_prefix inp env
  exact mem_run_of_tryBody inp env e hsub (by rw [hrest]; exact List.mem_append_left _ h)

/-- The concrete version the non-skip path resolves before the cache probe:
the (defaulted) constraint itself, or the result of the latest-resolution
operation when the constraint is the sentinel `"latest"`. -/
def resolveVersion (inp : Inputs) (env : Env) : Except String String :=
  if resolvedConstraint inp = "latest" then env.bestVersion "> 0.0.0"
  else Except.ok (resolvedConstraint inp)

/-- C4: with `skipInstall = false` and `version = "latest"`, the
latest-resolution operation is invoked exactly once, with the
unconstrained range `"> 0.0.0"`; its result `r` — not the literal string
`"latest"` — is the version used for the cache probe, for any install
call, and for any final step output. -/
theorem c4_latest_resolution (inp : Inputs) (env : Env) (r : String)
    (hsub : env.subscription ≠ SubStatus.forbidden)
    (hskip : inp.skipInstall = false)
    (hver : presence inp.version = some "latest")
    (hres : env.bestVersion "> 0.0.0" = Except.ok r) :
    bestVersionCalls (run inp env).1 = ["> 0.0.0"] ∧
    findCalls (run inp env).1 = [("gcloud", r)] ∧
    (∀ c ∈ installCalls (run inp env).1, c = (r, inp.cache)) ∧
    (∀ p ∈ outputsOf (run inp env).1, p = ("version", some r)) := by
  have hl : resolvedConstraint inp = "latest" := by
    unfold resolvedConstraint
    rw [hver]
    rfl
  have hpi := phaseInstall_latest inp env r hskip hl hres
  have hdbg : List.filterMap selBestVersion (unsetDebugTrace inp) = [] :=
    filterMap_unsetDebugTrace inp selBestVersion (fun _ => rfl)
  have hdbgF : List.filterMap selFind (unsetDebugTrace inp) = [] :=
    filterMap_unsetDebugTrace inp selFind (fun _ => rfl)
  have hdbgI : List.filterMap selInstall (unsetDebugTrace inp) = [] :=
    filterMap_unsetDebugTrace inp selInstall (fun _ => rfl)
  refine ⟨?_, ?_, ?_, ?_⟩
  · rw [bestVersionCalls_run inp env hsub, hpi]
    show List.filterMap selBestVersion _ = _
    rw [bestVersionCalls_installStep]
    simp [List.filterMap_append, hdbg, selBestVersion]
  · rw [findCalls_run inp env hsub, hpi]
    show List.filterMap selFind _ = _
    rw [findCalls_installStep]
    simp [List.filterMap_append, hdbgF, selFind]
  · intro c hc
    rw [installCalls_run inp env hsub, hpi] at hc
    rw [show installCalls (installStep inp env r
        (unsetDebugTrace inp ++ [Effect.logDebug "resolving latest version",
          Effect.callBestVersion "> 0.0.0",
          Effect.logDebug ("resolved latest version to " ++ r)])).1 =
        List.filterMap selInstall (installStep inp env r
        (unsetDebugTrace inp ++ [Effect.logDebug "resolving latest version",
          Effect.callBestVersion "> 0.0.0",
          Effect.logDebug ("resolved latest version to " ++ r)])).1 from rfl,
      installCalls_installStep] at hc
    by_cases hf : env.toolCacheFind "gcloud" r = "" <;>
      simp [hf, List.filterMap_append, hdbgI, selInstall] at hc
    exact hc
  · intro p hp
    rw [outputsOf_run inp env hsub] at hp
    cases hr : (tryBody inp env).2 with
    | error e => rw [hr] at hp; simp at hp
    | ok v =>
      rw [hr] at hp
      simp at hp
      have hov := tryBody_ok_version inp env v hr
      rw [hpi] at hov
      have := installStep_snd_ok inp env r _ v hov
      rw [hp, this]

/-- C4 witness: the theorem applied with `version = "latest"` in an
environment whose latest-resolution returns `"500.0.0"`. -/
theorem c4_latest_resolution_witness :
    bestVersionCalls (run ⟨false, "latest", "", "", true⟩ envOk).1 = ["> 0.0.0"] ∧
    findCalls (run ⟨false, "latest", "", "", true⟩ envOk).1 = [("gcloud", "500.0.0")] :=
  ⟨(c4_latest_resolution ⟨false, "latest", "", "", true⟩ envOk "500.0.0" (by decide) rfl
      (by decide) rfl).1,
   (c4_latest_resolution ⟨false, "latest", "", "", true⟩ envOk "500.0.0" (by decide) rfl
      (by decide) rfl).2.1⟩

/-- C8: with `skipInstall = false` and the version input absent, the
constraint used for the cache probe and for any install call is the
unconstrained marker `"> 0.0.0"`. -/
theorem c8_default_constraint (inp : Inputs) (env : Env)
    (hsub : env.subscription ≠ SubStatus.forbidden)
    (hskip : inp.skipInstall = false)
    (hver : presence inp.version = none) :
    findCalls (run inp env).1 = [("gcloud", "> 0.0.0")] ∧
    ∀ c ∈ installCalls (run inp env).1, c = ("> 0.0.0", inp.cache) := by
  have hl : resolvedConstraint inp = "> 0.0.0" := by
    unfold resolvedConstraint
    rw [hver]
    rfl
  have hll : resolvedConstraint inp ≠ "latest" := by
    rw [hl]
    decide
  have hpi := phaseInstall_notLatest inp env hskip hll
  rw [hl] at hpi
  have hdbgF : List.filterMap selFind (unsetDebugTrace inp) = [] :=
    filterMap_unsetDebugTrace inp selFind (fun _ => rfl)
  have hdbgI : List.filterMap selInstall (unsetDebugTrace inp) = [] :=
    filterMap_unsetDebugTrace inp selInstall (fun _ => rfl)
  constructor
  · rw [findCalls_run inp env hsub, hpi]
    show List.filterMap selFind _ = _
    rw [findCalls_installStep]
    simp [hdbgF]
  · intro c hc
    rw [installCalls_run inp env hsub, hpi] at hc
    rw [show installCalls (installStep inp env "> 0.0.0" (unsetDebugTrace inp)).1 =
        List.filterMap selInstall (installStep inp env "> 0.0.0" (unsetDebugTrace inp)).1
        from rfl,
      installCalls_installStep] at hc
    by_cases hf : env.toolCacheFind "gcloud" "> 0.0.0" = "" <;>
      simp [hf, hdbgI] at hc
    exact hc

/-- C8 witness: the theorem applied with an absent version input. -/
theorem c8_default_constraint_witness :
    findCalls (run ⟨false, "", "", "", true⟩ envOk).1 = [("gcloud", "> 0.0.0")] :=
  (c8_default_constraint ⟨false, "", "", "", true⟩ envOk (by decide) rfl (by decide)).1

/-- C9: with `skipInstall = false` and the version resolved to `v`, a cache
hit adds the cached tool's `bin` directory to the search path and never
invokes install, while a cache miss invokes install exactly once with `v`
and the `useCache` flag; hence a second run against a warm cache never
installs. -/
theorem c9_cache_probe_decides_install (inp : Inputs) (env : Env) (v : String)
    (hsub : env.subscription ≠ SubStatus.forbidden)
    (hskip : inp.skipInstall = false)
    (hres : resolveVersion inp env = Except.ok v) :
    (env.toolCacheFind "gcloud" v ≠ "" →
      Effect.addPath (env.toolCacheFind "gcloud" v ++ "/bin") ∈ (run inp env).1 ∧
      installCalls (run inp env).1 = []) ∧
    (env.toolCacheFind "gcloud" v = "" →
      installCalls (run inp env).1 = [(v, inp.cache)]) := by
  have hdbgI : List.filterMap selInstall (unsetDebugTrace inp) = [] :=
    filterMap_unsetDebugTrace inp selInstall (fun _ => rfl)
  obtain ⟨t, hpi, hti⟩ :
      ∃ t, phaseInstall inp env = installStep inp env v t ∧
        List.filterMap selInstall t = [] := by
    by_cases hl : resolvedConstraint inp = "latest"
    · unfold resolveVersion at hres
      rw [if_pos hl] at hres
      refine ⟨_, phaseInstall_latest inp env v hskip hl hres, ?_⟩
      simp [List.filterMap_append, hdbgI, selInstall]
    · unfold resolveVersion at hres
      rw [if_neg hl] at hres
      have hcv : resolvedConstraint inp = v := by
        cases hres
        rfl
      have h := phaseInstall_notLatest inp env hskip hl
      rw [hcv] at h
      exact ⟨_, h, hdbgI⟩
  constructor
  · intro hf
    constructor
    · apply mem_run_of_phaseInstall inp env _ hsub
      rw [hpi, installStep_found inp env v t hf]
      simp [List.mem_append]
    · rw [installCalls_run inp env hsub, hpi]
      rw [show installCalls (installStep inp env v t).1 =
          List.filterMap selInstall (installStep inp env v t).1 from rfl,
        installCalls_installStep]
      simp [hf, hti]
  · intro hf
    rw [installCalls_run inp env hsub, hpi]
    rw [show installCalls (installStep inp env v t).1 =
        List.filterMap selInstall (installStep inp env v t).1 from rfl,
      installCalls_installStep]
    simp [hf, hti]

/-- C9 witness: cache hit (warm cache) adds the path and never installs;
cache miss installs exactly once. -/
theorem c9_cache_probe_decides_install_witness :
    (Effect.addPath ("/cache/gcloud" ++ "/bin") ∈ (run ⟨false, "4.0.0", "", "", true⟩ envWarm).1 ∧
      installCalls (run ⟨false, "4.0.0", "", "", true⟩ envWarm).1 = []) ∧
    installCalls (run ⟨false, "4.0.0", "", "", true⟩ envOk).1 = [("4.0.0", true)] :=
  ⟨(c9_cache_probe_decides_install ⟨false, "4.0.0", "", "", true⟩ envWarm "4.0.0" (by decide)
      rfl rfl).1 (by decide),
   (c9_cache_probe_decides_install ⟨false, "4.0.0", "", "", true⟩ envOk "4.0.0" (by decide)
      rfl rfl).2 rfl⟩

theorem getLast?_shape {α : Type} (l₁ l₂ : List α) (a : α) :
    (l₁ ++ (l₂ ++ [a]) ++ []).getLast? = some a := by
  rw [List.append_nil, ← List.append_assoc]
  exact List.getLast?_concat _

/-- C5: in any run that reaches the authentication step, if the ambient
credentials-file variable is set then `authenticate` is called exactly once
with that path and its failure surfaces as the reported run failure; if it
is unset then `isAuthenticated` is queried exactly once, the auth phase
itself never throws (its exceptions are swallowed to `false`), and exactly
one warning is emitted unless the check returned `true`. -/
theorem c5_authentication (inp : Inputs) (env : Env) (v : Option String)
    (hsub : env.subscription ≠ SubStatus.forbidden)
    (h1 : (phaseInstall inp env).2 = Except.ok v)
    (h2 : (phaseComponents inp env).2 = Except.ok ()) :
    (env.googleGhaCredsPath ≠ "" →
      authCalls (run inp env).1 = [env.googleGhaCredsPath] ∧
      ∀ e, env.authenticateGcloudSDK env.googleGhaCredsPath = Except.error e →
        Effect.setFailed (failurePrefix ++ e) ∈ (run inp env).1) ∧
    (env.googleGhaCredsPath = "" →
      isAuthenticatedCalls (run inp env).1 = 1 ∧
      (phaseAuth env).2 = Except.ok () ∧
      warningCount (run inp env).1 authWarningMsg =
        (match env.isAuthenticated with
         | Except.ok true => 0
         | _ => 1)) := by
  constructor
  · intro hc
    constructor
    · rw [authCalls_run inp env v hsub h1 h2]
      unfold authCalls phaseAuth
      cases ha : env.authenticateGcloudSDK env.googleGhaCredsPath <;>
        simp [hc, ha, selAuth]
    · intro e he
      have hae : (phaseAuth env).2 = Except.error e := by
        unfold phaseAuth
        simp [hc, he]
      rcases tryBody_cases inp env with ⟨e', he', _, _⟩ | ⟨w, e', _, he', _, _⟩ |
          ⟨w, e', _, _, he', _, htb2⟩ | ⟨w, e', _, _, he', _, _, _⟩ |
          ⟨w, _, _, he', _, _, _⟩
      · rw [h1] at he'; cases he'
      · rw [h2] at he'; cases he'
      · rw [hae] at he'
        cases he'
        exact setFailed_mem_run inp env e hsub htb2
      · rw [hae] at he'; cases he'
      · rw [hae] at he'; cases he'
  · intro hc
    have hauthed : (phaseAuth env).2 = Except.ok () := by
      unfold phaseAuth
      simp [hc]
    refine ⟨?_, hauthed, ?_⟩
    · rw [isAuthenticatedCalls_run inp env v hsub h1 h2]
      unfold isAuthenticatedCalls phaseAuth
      cases hia : env.isAuthenticated with
      | error s => simp [hc, hia, List.count_cons]
      | ok b => cases b <;> simp [hc, hia, List.count_cons]
    · rw [warningCount_run_auth inp env v hsub h1 h2]
      unfold warningCount phaseAuth
      cases hia : env.isAuthenticated with
      | error s => simp [hc, hia, List.count_cons]
      | ok b => cases b <;> simp [hc, hia, List.count_cons]

/-- C5 witness: a failing credentials-file authentication is called with
the path and reported fatally; without credentials, a throwing
`isAuthenticated` is swallowed into exactly one warning. -/
theorem c5_authentication_witness :
    (authCalls (run ⟨true, "", "", "", false⟩ envAuthFail).1 = ["/tmp/creds.json"] ∧
     Effect.setFailed (failurePrefix ++ "auth boom")
       ∈ (run ⟨true, "", "", "", false⟩ envAuthFail).1) ∧
    (isAuthenticatedCalls (run ⟨true, "", "", "", false⟩ envNoCreds).1 = 1 ∧
     warningCount (run ⟨true, "", "", "", false⟩ envNoCreds).1 authWarningMsg = 1) := by
  constructor
  · have h := (c5_authentication ⟨true, "", "", "", false⟩ envAuthFail none (by decide)
      rfl rfl).1 (by decide)
    exact ⟨h.1, h.2 "auth boom" rfl⟩
  · have h := (c5_authentication ⟨true, "", "", "", false⟩ envNoCreds none (by decide)
      rfl rfl).2 rfl
    exact ⟨h.1, h.2.2⟩

/-- C10: the step output `version` is set only as the very last action of
the main body: if any phase inside the error boundary throws, the run is
marked failed and no `version` output is ever set; on success the output
is set exactly once and is the final effect of the run. -/
theorem c10_output_is_last (inp : Inputs) (env : Env)
    (hsub : env.subscription ≠ SubStatus.forbidden) :
    (∀ e, (tryBody inp env).2 = Except.error e →
      outputsOf (run inp env).1 = [] ∧
      Effect.setFailed (failurePrefix ++ e) ∈ (run inp env).1) ∧
    (∀ v, (tryBody inp env).2 = Except.ok v →
      outputsOf (run inp env).1 = [("version", v)] ∧
      (run inp env).1.getLast? = some (Effect.setOutput "version" v)) := by
  constructor
  · intro e he
    refine ⟨?_, setFailed_mem_run inp env e hsub he⟩
    rw [outputsOf_run inp env hsub, he]
  · intro v hv
    refine ⟨?_, ?_⟩
    · rw [outputsOf_run inp env hsub, hv]
    · obtain ⟨htr, _⟩ := run_trace_of_not_forbidden inp env hsub
      rw [htr, hv]
      rcases tryBody_cases inp env with ⟨e', _, _, h2'⟩ | ⟨w, e', _, _, _, h2'⟩ |
          ⟨w, e', _, _, _, _, h2'⟩ | ⟨w, e', _, _, _, _, _, h2'⟩ |
          ⟨w, _, _, _, _, ht', h2'⟩
      · rw [h2'] at hv; cases hv
      · rw [h2'] at hv; cases hv
      · rw [h2'] at hv; cases hv
      · rw [h2'] at hv; cases hv
      · rw [h2'] at hv
        cases hv
        rw [ht']
        exact getLast?_shape _ _ _

/-- C10 witness: a failing install yields a reported failure and no output;
a fully successful run ends with the `setOutput` as its last effect. -/
theorem c10_output_is_last_witness :
    (outputsOf (run ⟨false, "4.0.0", "", "", false⟩ envInstallFail).1 = [] ∧
     Effect.setFailed (failurePrefix ++ "install boom")
       ∈ (run ⟨false, "4.0.0", "", "", false⟩ envInstallFail).1) ∧
    (run ⟨false, "4.0.0", "", "", false⟩ envOk).1.getLast? =
      some (Effect.setOutput "version" (some "4.0.0")) :=
  ⟨(c10_output_is_last ⟨false, "4.0.0", "", "", false⟩ envInstallFail (by decide)).1
      "install boom" rfl,
   ((c10_output_is_last ⟨false, "4.0.0", "", "", false⟩ envOk (by decide)).2
      (some "4.0.0") rfl).2⟩
